import Mathlib

/-!
Verification of the TinyTuya API server (server/server.py of the
tinytuya-async repository) against its natural-language specification.

The development shallowly embeds the parts of server.py that the claims
are about:
  - the device registry (deviceslist), the credential store (tuyadevices),
    the pending-resolution map (retrydevices) and the new-device tracking
    list (newdevices), all Python dicts/lists modelled as association
    lists / lists that preserve insertion order;
  - appenddevice, tuyaLookup, offlineDevices, getDeviceIdByName,
    formatreturn and tuyaCloudRefresh;
  - the UDP datagram processing of the tuyalisten thread;
  - the per-request handler branches for /status, /set, /turnon and
    /turnoff, with the device I/O round trip abstracted by an outcome
    oracle (the network is outside the embedding, its result is a
    parameter);
  - one iteration of the retry/resolution loop of the main thread.

Python values that matter to the claims are modelled explicitly: the
False value returned by getDeviceIdByName on a failed name lookup is a
PyVal.pybool, JSON bodies are JVal trees, and string coercion in the
/set branch works on character lists exactly like the Python string
methods it mirrors (lower, startswith, split, isnumeric restricted to
ASCII digits, int on digit strings).
-/

/-- JSON values, the shape of every response body built with json.dumps. -/
inductive JVal where
  | jnull
  | jbool (b : Bool)
  | jnum (n : Int)
  | jstr (s : String)
  | jarr (xs : List JVal)
  | jobj (fields : List (String × JVal))
deriving Repr

/-- Response payload of a handler branch: either the initial plain
string message (message = "Error" at the top of do_GET) or a JSON body. -/
inductive Resp where
  | raw (s : String)
  | json (v : JVal)
deriving Repr

/-- One record of devices.json, the credential store (tuyadevices).
The fields are id, name, key, optional mac and optional DPS mapping;
a mapping entry associates a numeric data-point index (kept as the
string key used in the JSON file) with its human-readable code. -/
structure DeviceRecord where
  id : String
  name : String
  key : String
  mac : Option String
  mapping : Option (List (String × String))
deriving Repr, DecidableEq

/-- One entry of deviceslist, built by the tuyalisten thread from a UDP
announcement: the parsed ip and version plus the name/mac/key/id fields
written at lines 309-312 of server.py.  An announcement that could not
be parsed has no version field. -/
structure RegEntry where
  ip : String
  version : Option String
  name : String
  mac : String
  key : String
  id : String
deriving Repr, DecidableEq

/-- The deviceslist dict: device id to registry entry, insertion order
preserved as Python dicts do. -/
abbrev RegList := List (String × RegEntry)

/-- The retrydevices dict: device id (or the wildcard pseudo-id) to
remaining retry budget. -/
abbrev RetryList := List (String × Int)

/-- Python value that is either a string or a bool; getDeviceIdByName
returns the found id string or the bool False. -/
inductive PyVal where
  | str (s : String)
  | pybool (b : Bool)
deriving Repr, DecidableEq

/-- Render a PyVal the way json.dumps renders it inside an object. -/
def pyvalToJ : PyVal → JVal
  | .str s => .jstr s
  | .pybool b => .jbool b

/-- Dict membership test (the Python "k in d" on a dict). -/
def containsKey {α : Type} (l : List (String × α)) (k : String) : Bool :=
  l.any (fun kv => kv.1 == k)

/-- Dict read (the Python "d[k]"), first binding wins. -/
def lookupKey {α : Type} (l : List (String × α)) (k : String) : Option α :=
  (l.find? (fun kv => kv.1 == k)).map (fun kv => kv.2)

/-- Dict deletion (the Python "del d[k]"); dict-derived lists never
repeat a key, so filtering every binding of k is the same operation. -/
def removeKey {α : Type} (l : List (String × α)) (k : String) : List (String × α) :=
  l.filter (fun kv => !(kv.1 == k))

/-- Dict write (the Python "d[k] = v"): replace in place when the key
exists, append otherwise, as Python dicts keep insertion order. -/
def upsertKey {α : Type} (l : List (String × α)) (k : String) (v : α) : List (String × α) :=
  if containsKey l k then l.map (fun kv => if kv.1 == k then (k, v) else kv)
  else l ++ [(k, v)]

/-- Python str.split(sep) for a one-character separator, on char lists. -/
def pySplitChar (sep : Char) : List Char → List (List Char)
  | [] => [[]]
  | c :: rest =>
    if c = sep then [] :: pySplitChar sep rest
    else
      match pySplitChar sep rest with
      | [] => [[c]]
      | seg :: segs => (c :: seg) :: segs

/-- Python str.lower restricted to what Char.toLower covers (ASCII). -/
def pyLower (s : List Char) : List Char := s.map Char.toLower

/-- Python str.isnumeric, modelled for ASCII digit characters (the only
ones a device URL token contains; non-ASCII numerics are out of scope). -/
def pyIsNumeric (s : List Char) : Bool := !s.isEmpty && s.all Char.isDigit

/-- Python int() on a string of ASCII digits. -/
def pyIntOfDigits (s : List Char) : Nat :=
  s.foldl (fun a c => a * 10 + (c.toNat - 48)) 0

/-- Hex digit value, for percent-decoding. -/
def hexVal (c : Char) : Option Nat :=
  if c.isDigit then some (c.toNat - 48)
  else if 97 ≤ c.toNat ∧ c.toNat ≤ 102 then some (c.toNat - 87)
  else if 65 ≤ c.toNat ∧ c.toNat ≤ 70 then some (c.toNat - 55)
  else none

/-- Percent-decoding of urllib.parse.unquote, modelled for single-byte
escapes: a percent followed by two hex digits becomes that character,
anything else is copied unchanged. -/
def pyUnquoteChars : List Char → List Char
  | [] => []
  | '%' :: a :: b :: rest =>
    match hexVal a, hexVal b with
    | some x, some y => Char.ofNat (16 * x + y) :: pyUnquoteChars rest
    | _, _ => '%' :: pyUnquoteChars (a :: b :: rest)
  | c :: rest => c :: pyUnquoteChars rest

/-- String-level wrapper of pyUnquoteChars. -/
def pyUnquote (s : String) : String := String.mk (pyUnquoteChars s.data)

/-- Lines 135-143: look up a device id in tuyadevices, returning
(name, key, mac), with empty strings when the id is unknown and an
empty mac when the record has none. -/
def tuyaLookup (tds : List DeviceRecord) (deviceid : String) : String × String × String :=
  match tds.find? (fun i => i.id == deviceid) with
  | some i => (i.name, i.key, i.mac.getD "")
  | none => ("", "", "")

/-- Lines 145-149: return True and leave the dict alone when the id is
already present, otherwise insert the new entry and return False. -/
def appenddevice (newdevice : RegEntry) (devices : RegList) : Bool × RegList :=
  if containsKey devices newdevice.id then (true, devices)
  else (false, devices ++ [(newdevice.id, newdevice)])

/-- Offline entry built by offlineDevices: name plus mac when present. -/
structure OfflineInfo where
  name : String
  mac : Option String
deriving Repr, DecidableEq

/-- Lines 151-163: every credential-store record whose id is not a key
of deviceslist, keyed by id (every element of the embedded tuyadevices
is a record, so the type-check skip at line 155 never fires here). -/
def offlineDevices (tds : List DeviceRecord) (dl : RegList) : List (String × OfflineInfo) :=
  tds.foldl (fun off d =>
    if containsKey dl d.id then off
    else upsertKey off d.id { name := d.name, mac := d.mac }) []

/-- Lines 165-172: None becomes a status-OK object, a dict passes
through, anything else is wrapped as a status field. -/
def formatreturn (value : Option JVal) : JVal :=
  match value with
  | none => .jobj [("status", .jstr "OK")]
  | some (.jobj fields) => .jobj fields
  | some v => .jobj [("status", v)]

/-- Lines 257-264: scan deviceslist for an entry whose name equals the
percent-decoded token and return its id field, or the Python bool False
when no entry matches. -/
def getDeviceIdByName (dl : RegList) (name : String) : PyVal :=
  match dl.find? (fun kv => kv.2.name == pyUnquote name) with
  | some kv => .str kv.2.id
  | none => .pybool false

/-- Repeated handler pattern (for example lines 399-400): keep the token
when it is a deviceslist key, otherwise replace it by the name lookup
result (which is False when the name does not resolve either). -/
def resolveId (dl : RegList) (tok : String) : PyVal :=
  if containsKey dl tok then .str tok else getDeviceIdByName dl tok

/-- Membership of a PyVal in the deviceslist keys; the bool False is
never a key, so only the string case can succeed. -/
def pyvalInKeys (dl : RegList) (v : PyVal) : Bool :=
  match v with
  | .str s => containsKey dl s
  | .pybool _ => false

/-- Comparison of a PyVal with a string (the Python == between the
resolved id and a record id). -/
def pyEqStr (v : PyVal) (s : String) : Bool :=
  match v with
  | .str t => t == s
  | .pybool _ => false

/-- The cloudconfig dict. -/
structure CloudConfig where
  apiKey : String
  apiSecret : String
  apiRegion : String
  apiDeviceID : String
deriving Repr, DecidableEq

/-- Outcome of the external Cloud Client (tinytuya.Cloud), an oracle
parameter of the embedding: either the fetched device list or the cloud
error value surfaced unchanged. -/
inductive CloudResult where
  | ok (devs : List DeviceRecord)
  | err (e : JVal)
deriving Repr

/-- JSON encoding of a mapping dict, code field only. -/
def mappingToJ (m : List (String × String)) : JVal :=
  .jobj (m.map (fun p => (p.1, .jobj [("code", .jstr p.2)])))

/-- JSON encoding of a credential record, optional fields included when
present. -/
def recordToJ (d : DeviceRecord) : JVal :=
  .jobj ([("id", .jstr d.id), ("name", .jstr d.name), ("key", .jstr d.key)]
    ++ (match d.mac with | some m => [("mac", .jstr m)] | none => [])
    ++ (match d.mapping with | some m => [("mapping", mappingToJ m)] | none => []))

/-- Lines 242-255: tuyaCloudRefresh.  When any of the four cloudconfig
fields is empty, return the configuration-missing error without
touching the Cloud Client; otherwise surface the Cloud Client's own
error unchanged, or replace tuyadevices with the fetched list.  The
result is (response value, new tuyadevices, whether the Cloud Client
was contacted). -/
def tuyaCloudRefresh (cfg : CloudConfig) (cloud : CloudResult) (tds : List DeviceRecord) :
    JVal × List DeviceRecord × Bool :=
  if cfg.apiKey == "" || cfg.apiSecret == "" || cfg.apiRegion == "" || cfg.apiDeviceID == "" then
    (.jobj [("Error", .jstr "Cloud API config missing")], tds, false)
  else
    match cloud with
    | .err e => (e, tds, true)
    | .ok devs => (.jobj [("devices", .jarr (devs.map recordToJ))], devs, true)

/-- Retry budget RETRYCOUNT = 5 of server.py line 86. -/
def RETRYCOUNT : Int := 5

/-- Retry interval RETRYTIME = 30 of server.py line 85. -/
def RETRYTIME : Nat := 30

/-- State shared by the tuyalisten threads: deviceslist, newdevices and
retrydevices. -/
structure ListenState where
  deviceslist : RegList
  newdevices : List String
  retrydevices : RetryList
deriving Repr, DecidableEq

/-- One UDP datagram after the framing/decryption step of lines 290-302:
either it parsed to a JSON announcement carrying ip, gwId and version,
or parsing failed and only the observed source ip is known (in which
case gwId stays the empty string of line 288). -/
inductive Packet where
  | parsed (ip gwId ver : String)
  | unparsed (ip : String)
deriving Repr, DecidableEq

/-- Device id a datagram announces ("" when unparsed). -/
def packetId : Packet → String
  | .parsed _ g _ => g
  | .unparsed _ => ""

/-- Lines 287-320: one iteration of the tuyalisten receive loop after a
datagram arrived.  The announcement is enriched with tuyaLookup data,
inserted with appenddevice, and when the insert was new and the device
has neither name nor key it is registered in retrydevices with the
RETRYCOUNT budget and appended to newdevices. -/
def processDatagram (tds : List DeviceRecord) (st : ListenState) (pkt : Packet) : ListenState :=
  let ipgw := match pkt with
    | .parsed ip g v => (ip, g, some v)
    | .unparsed ip => (ip, "", none)
  let lk := tuyaLookup tds ipgw.2.1
  let entry : RegEntry :=
    { ip := ipgw.1, version := ipgw.2.2, name := lk.1, mac := lk.2.2, key := lk.2.1,
      id := ipgw.2.1 }
  let r := appenddevice entry st.deviceslist
  if r.1 then { st with deviceslist := r.2 }
  else
    let st1 : ListenState := { st with deviceslist := r.2 }
    if lk.1 = "" ∧ lk.2.1 = "" ∧ !(st1.newdevices.contains entry.id) then
      { st1 with
        retrydevices := upsertKey st1.retrydevices entry.id RETRYCOUNT,
        newdevices := st1.newdevices ++ [entry.id] }
    else st1

/-- Outcome of the device round trip of a control branch (OutletDevice
construction, set_version and the single operation), an oracle
parameter: the operation returned a value, or some step raised. -/
inductive DevOp where
  | raises
  | returns (v : Option JVal)
deriving Repr

/-- Outcome of d.status() in the /status branch; a successful status is
the dict the enrichment step then extends. -/
inductive StatusOp where
  | raises
  | returns (fields : List (String × JVal))
deriving Repr

/-- Result of a control branch: the response payload plus whether a
device session was opened and whether d.close() was executed. -/
structure BranchResult where
  msg : Resp
  opened : Bool
  closed : Bool
deriving Repr

/-- Structured error object carrying the offending id. -/
def errIdObj (emsg : String) (idv : PyVal) : JVal :=
  .jobj [("Error", .jstr emsg), ("id", pyvalToJ idv)]

/-- Lines 439-462, the /turnoff branch.  The suffix is what follows
/turnoff/ in the path; a slash splits it into id and switch number and
any other arity is the syntax error of line 447 (which falls through to
the lookup with an empty id, as the source does).  The device round
trip of lines 452-456 is abstracted by the outcome oracle: on a normal
return d.close() at line 456 runs, on a raise the except branch of line
457 builds the error message and the close is never reached. -/
def turnoffBranch (dl : RegList) (suffix : String) (outcome : DevOp) : BranchResult :=
  let hasSlash := suffix.data.contains '/'
  let parts := (pySplitChar '/' suffix.data).map (fun l => String.mk l)
  let tokErr : String × Bool :=
    if hasSlash then
      match parts with
      | [a, _b] => (a, false)
      | _ => ("", true)
    else (suffix, false)
  let idv := resolveId dl tokErr.1
  if pyvalInKeys dl idv then
    match outcome with
    | .returns v => { msg := .json (formatreturn v), opened := true, closed := true }
    | .raises =>
      { msg := .json (errIdObj "Error sending command to device." idv),
        opened := true, closed := false }
  else if idv ≠ PyVal.str "" then
    { msg := .json (errIdObj "Device ID not found." idv), opened := false, closed := false }
  else
    { msg :=
        if tokErr.2 then
          .json (.jobj [("Error", .jstr "Invalid syntax in turnoff command."),
            ("url", .jstr ("/turnoff/" ++ suffix))])
        else .raw "Error",
      opened := false, closed := false }

/-- Lines 491-514, the /turnon branch, identical in structure to the
/turnoff branch. -/
def turnonBranch (dl : RegList) (suffix : String) (outcome : DevOp) : BranchResult :=
  let hasSlash := suffix.data.contains '/'
  let parts := (pySplitChar '/' suffix.data).map (fun l => String.mk l)
  let tokErr : String × Bool :=
    if hasSlash then
      match parts with
      | [a, _b] => (a, false)
      | _ => ("", true)
    else (suffix, false)
  let idv := resolveId dl tokErr.1
  if pyvalInKeys dl idv then
    match outcome with
    | .returns v => { msg := .json (formatreturn v), opened := true, closed := true }
    | .raises =>
      { msg := .json (errIdObj "Error sending command to device." idv),
        opened := true, closed := false }
  else if idv ≠ PyVal.str "" then
    { msg := .json (errIdObj "Device ID not found." idv), opened := false, closed := false }
  else
    { msg :=
        if tokErr.2 then
          .json (.jobj [("Error", .jstr "Invalid syntax in turnon command."),
            ("url", .jstr ("/turnon/" ++ suffix))])
        else .raw "Error",
      opened := false, closed := false }

/-- Lines 529-535: extend the status dict with the dps_mapping of the
first credential record whose id matches (an empty array when the
record has no mapping), leaving it alone when no record matches. -/
def statusEnrich (tds : List DeviceRecord) (idv : PyVal) (response : List (String × JVal)) :
    List (String × JVal) :=
  match tds.find? (fun x => pyEqStr idv x.id) with
  | some x =>
    match x.mapping with
    | some m => upsertKey response "dps_mapping" (mappingToJ m)
    | none => upsertKey response "dps_mapping" (.jarr [])
  | none => response

/-- Lines 520-543, the /status branch.  On a normal status return the
response is enriched and d.close() at line 537 runs; when d.status()
raises, the except branch of line 538 answers with the error object and
the session is left open. -/
def statusBranch (tds : List DeviceRecord) (dl : RegList) (suffix : String)
    (outcome : StatusOp) : BranchResult :=
  let idv := resolveId dl suffix
  if pyvalInKeys dl idv then
    match outcome with
    | .returns fields =>
      { msg := .json (formatreturn (some (.jobj (statusEnrich tds idv fields)))),
        opened := true, closed := true }
    | .raises =>
      { msg := .json (errIdObj "Error polling device." idv), opened := true, closed := false }
  else
    { msg := .json (errIdObj "Device ID not found." idv), opened := false, closed := false }

/-- Value a /set request sends to the device after coercion. -/
inductive DpsValue where
  | pybool (b : Bool)
  | pystr (s : List Char)
  | pyint (n : Nat)
deriving Repr, DecidableEq

/-- Lines 390-398, the /set value coercion: a token lowering to true or
false becomes the bool, a token starting with a double quote becomes
the segment between the first two quotes (split on the quote character,
element one), an all-digit token becomes the integer, anything else
stays a string. -/
def coerceChars (v : List Char) : DpsValue :=
  if pyLower v = ['t', 'r', 'u', 'e'] then .pybool true
  else if pyLower v = ['f', 'a', 'l', 's', 'e'] then .pybool false
  else if v.head? = some '"' then .pystr ((pySplitChar '"' v).getD 1 [])
  else if pyIsNumeric v then .pyint (pyIntOfDigits v)
  else .pystr v

/-- Lines 401-408: when the key token is not numeric, walk tuyadevices
and, in each record whose id equals the resolved id, replace the
current key by the first mapping index whose code equals it (the inner
break); the outer loop has no break and continues over the remaining
records with the updated key, exactly as the source does. -/
def resolveDpsKey (tds : List DeviceRecord) (idv : PyVal) (dpsKey : String) : String :=
  if pyIsNumeric dpsKey.data then dpsKey
  else
    tds.foldl (fun k x =>
      if pyEqStr idv x.id then
        match x.mapping with
        | some m =>
          match m.find? (fun p => p.2 == k) with
          | some p => p.1
          | none => k
        | none => k
      else k) dpsKey

/-- Lines 385-417, the /set branch on an already five-way-split path:
coerce the value token (after percent-decoding, line 390), resolve the
id token, resolve the key token through the mapping, and either report
the pair handed to d.set_value (second component) or answer the
not-found error with the resolved id value. -/
def setBranch (tds : List DeviceRecord) (dl : RegList) (idTok dpsKeyTok dpsValTok : String) :
    JVal × Option (String × DpsValue) :=
  let dpsValue := coerceChars (pyUnquoteChars dpsValTok.data)
  let idv := resolveId dl idTok
  let k := resolveDpsKey tds idv dpsKeyTok
  if pyvalInKeys dl idv then
    (formatreturn none, some (k, dpsValue))
  else
    (.jobj [("Error", .jstr "Device ID not found."), ("id", pyvalToJ idv)], none)

/-- Lines 385-420, the /set branch again, seen through its session
lifecycle (the companion of setBranch, which reports the dispatched
pair; the two leading underscored bindings are the set_value arguments
that setBranch reports, computed here in source order).  The device
round trip of lines 411-414 is abstracted by the outcome oracle: on a
normal set_value return, d.close() at line 414 runs; when any step of
the device part raises, control jumps to the except at line 418 — the
branch-wide handler whose message is the syntax error object — and the
close is never reached. -/
def setValueBranch (tds : List DeviceRecord) (dl : RegList)
    (idTok dpsKeyTok dpsValTok : String) (outcome : DevOp) : BranchResult :=
  let _dpsValue := coerceChars (pyUnquoteChars dpsValTok.data)
  let idv := resolveId dl idTok
  let _k := resolveDpsKey tds idv dpsKeyTok
  if pyvalInKeys dl idv then
    match outcome with
    | .returns v => { msg := .json (formatreturn v), opened := true, closed := true }
    | .raises =>
      { msg := .json (.jobj [("Error", .jstr "Syntax error in set command URL."),
          ("url", .jstr ("/set/" ++ idTok ++ "/" ++ dpsKeyTok ++ "/" ++ dpsValTok))]),
        opened := true, closed := false }
  else
    { msg := .json (.jobj [("Error", .jstr "Device ID not found."), ("id", pyvalToJ idv)]),
      opened := false, closed := false }

/-- Global state of the main retry loop: the credential store, the
registry, the two resolution-tracking structures, the timer gate, the
cloud configuration and an instrumentation counter of how many times
tuyaCloudRefresh has been invoked. -/
structure ServerState where
  tuyadevices : List DeviceRecord
  deviceslist : RegList
  newdevices : List String
  retrydevices : RetryList
  retrytimer : Nat
  cloudconfig : CloudConfig
  cloudCalls : Nat
deriving Repr

/-- Registry update of lines 651-653 on the entry of one device id. -/
def updEntry (e : RegEntry) (dname dkey mac : String) : RegEntry :=
  { e with name := dname, key := dkey, mac := mac }

/-- Field update of lines 651-653 applied inside deviceslist. -/
def updateEntryFields (dl : RegList) (devid dname dkey mac : String) : RegList :=
  dl.map (fun kv => if kv.1 = devid then (kv.1, updEntry kv.2 dname dkey mac) else kv)

/-- Lines 642-656, the body of the resolution loop for one id of
newdevices: look the id up in the (possibly refreshed) credential
store; when a name or key is found, write name/key/mac into the
registry entry, record the id as found, and delete it from retrydevices
when present. -/
def resolveStep (tds : List DeviceRecord) (acc : RegList × RetryList × List String)
    (devid : String) : RegList × RetryList × List String :=
  let lk := tuyaLookup tds devid
  if lk.1 ≠ "" ∨ lk.2.1 ≠ "" then
    (updateEntryFields acc.1 devid lk.1 lk.2.1 lk.2.2,
     if containsKey acc.2.1 devid then removeKey acc.2.1 devid else acc.2.1,
     acc.2.2 ++ [devid])
  else acc

/-- Credential store a resolution pass works with (lines 636-639): the
wildcard skips the refresh and keeps tuyadevices, otherwise the pass
starts by invoking tuyaCloudRefresh and uses its resulting list. -/
def passTds (cloud : CloudResult) (s : ServerState) : List DeviceRecord :=
  if containsKey s.retrydevices "*" then s.tuyadevices
  else (tuyaCloudRefresh s.cloudconfig cloud s.tuyadevices).2.1

/-- Lines 635-667, one pass of the retry loop body once the gate of
line 634 is open: refresh the cloud (and rearm the timer) unless the
wildcard is pending, try to resolve every id of newdevices, drop the
found ids from newdevices, then decrement every remaining retry budget
and delete the entries that fell below one.  The Cloud Client outcome
is the oracle parameter; the cloudCalls counter instruments how often
tuyaCloudRefresh is invoked. -/
def resolvePass (now : Nat) (cloud : CloudResult) (s : ServerState) : ServerState :=
  if 0 < s.retrydevices.length then
    let star := containsKey s.retrydevices "*"
    let tds1 := passTds cloud s
    let acc := s.newdevices.foldl (resolveStep tds1)
      (s.deviceslist, s.retrydevices, [])
    let nd1 := s.newdevices.filter (fun d => !(acc.2.2.contains d))
    let rd2 := (acc.2.1.map (fun kv => (kv.1, kv.2 - 1))).filter
      (fun kv => decide ((1 : Int) ≤ kv.2))
    { s with
      tuyadevices := tds1, deviceslist := acc.1, newdevices := nd1,
      retrydevices := rd2,
      retrytimer := if star then s.retrytimer else now + RETRYTIME,
      cloudCalls := if star then s.cloudCalls else s.cloudCalls + 1 }
  else s

/-- Line 634, the gate of the retry loop: a pass runs when the interval
timer has elapsed or the wildcard pseudo-id is pending. -/
def retryLoopIter (now : Nat) (cloud : CloudResult) (s : ServerState) : ServerState :=
  if s.retrytimer ≤ now ∨ containsKey s.retrydevices "*" = true then resolvePass now cloud s
  else s

/-- Iterated resolution passes, each with its own time and Cloud Client
outcome. -/
def runPasses (ps : List (Nat × CloudResult)) (s : ServerState) : ServerState :=
  ps.foldl (fun st p => resolvePass p.1 p.2 st) s

/-- Lines 544-547, the /sync route: invoke tuyaCloudRefresh, rearm the
interval timer, and arm the wildcard pseudo-id with budget one. -/
def syncRoute (now : Nat) (cloud : CloudResult) (s : ServerState) : JVal × ServerState :=
  let r := tuyaCloudRefresh s.cloudconfig cloud s.tuyadevices
  (r.1,
   { s with
     tuyadevices := r.2.1, cloudCalls := s.cloudCalls + 1,
     retrytimer := now + RETRYTIME,
     retrydevices := upsertKey s.retrydevices "*" 1 })

/-- Lines 562-563, the /offline route body. -/
def offlineRoute (tds : List DeviceRecord) (dl : RegList) : JVal :=
  .jobj ((offlineDevices tds dl).map (fun p =>
    (p.1, JVal.jobj ([("name", JVal.jstr p.2.name)]
      ++ (match p.2.mac with | some m => [("mac", JVal.jstr m)] | none => [])))))

/-- Fixture entry for the concrete check theorems: a resolved device d1. -/
def sampleEntry : RegEntry :=
  { ip := "10.0.0.1", version := some "3.3", name := "Lamp", mac := "", key := "K", id := "d1" }

/-- Fixture registry holding only d1. -/
def sampleRegistry : RegList := [("d1", sampleEntry)]

/-- Fixture listener state whose registry holds only d1. -/
def sampleListenState : ListenState :=
  { deviceslist := sampleRegistry, newdevices := [], retrydevices := [] }

/-- Fixture credential record with id c9, unknown to sampleRegistry. -/
def sampleOfflineRecord : DeviceRecord :=
  { id := "c9", name := "N", key := "K", mac := none, mapping := none }

/-- Fixture credential record of the Plug1 scenario. -/
def samplePlugRecord : DeviceRecord :=
  { id := "abc123", name := "Plug1", key := "K", mac := none,
    mapping := some [("1", "switch_1")] }

/-- Fixture registry entry of the Plug1 scenario. -/
def samplePlugEntry : RegEntry :=
  { ip := "10.0.0.5", version := some "3.3", name := "Plug1", mac := "", key := "K",
    id := "abc123" }

/-- Fixture registry of the Plug1 scenario. -/
def samplePlugRegistry : RegList := [("abc123", samplePlugEntry)]

/-- Fixture state with one pending id d2 at budget two and a dead cloud
configuration. -/
def samplePendingState : ServerState :=
  { tuyadevices := [], deviceslist := sampleRegistry, newdevices := ["d2"],
    retrydevices := [("d2", 2)], retrytimer := 0, cloudconfig := ⟨"", "s", "r", "d"⟩,
    cloudCalls := 0 }

/-- Fixture pass schedule of two cycles. -/
def samplePasses : List (Nat × CloudResult) := [(100, .err .jnull), (200, .err .jnull)]

/-- Fixture state with only the armed wildcard pending, as the /sync
route leaves it. -/
def sampleStarState : ServerState :=
  { tuyadevices := [], deviceslist := [], newdevices := [], retrydevices := [("*", 1)],
    retrytimer := 1000, cloudconfig := ⟨"k", "s", "r", "d"⟩, cloudCalls := 0 }

/-- Fixture registry entry of a device discovered without credentials. -/
def sampleExpiredEntry : RegEntry :=
  { ip := "1.1.1.2", version := some "3.3", name := "", mac := "", key := "", id := "d2" }

/-- Fixture state in which d2's budget is about to expire under a dead
cloud configuration. -/
def sampleExpiringState : ServerState :=
  { tuyadevices := [], deviceslist := [("d2", sampleExpiredEntry)], newdevices := ["d2"],
    retrydevices := [("d2", 1)], retrytimer := 0, cloudconfig := ⟨"", "s", "r", "d"⟩,
    cloudCalls := 0 }

/-- Fixture state in which d2 has already expired (only d3 still has a
budget) but is still tracked in newdevices. -/
def sampleExpiredState : ServerState :=
  { tuyadevices := [], deviceslist := [("d2", sampleExpiredEntry)], newdevices := ["d2"],
    retrydevices := [("d3", 4)], retrytimer := 0, cloudconfig := ⟨"k", "s", "r", "d"⟩,
    cloudCalls := 0 }

/-- Fixture credential record delivered by a later cloud refresh. -/
def sampleResolvedRecord : DeviceRecord :=
  { id := "d2", name := "Plug2", key := "KK", mac := some "m2", mapping := none }

/-- Helper lemmas about the dict embedding. -/
theorem containsKey_iff_exists {α : Type} (l : List (String × α)) (k : String) :
    containsKey l k = true ↔ ∃ kv ∈ l, kv.1 = k := by
  simp [containsKey, List.any_eq_true, beq_iff_eq]

theorem containsKey_map_update {α : Type} (l : List (String × α)) (k j : String) (v : α) :
    containsKey (l.map (fun kv => if kv.1 == k then (k, v) else kv)) j = true ↔
      containsKey l j = true := by
  simp only [containsKey, List.any_map, List.any_eq_true, Function.comp]
  constructor
  · rintro ⟨kv, hm, hb⟩
    refine ⟨kv, hm, ?_⟩
    by_cases hk : kv.1 == k
    · rw [if_pos hk] at hb
      simp only [beq_iff_eq] at hb hk ⊢
      rw [hk, hb]
    · rwa [if_neg hk] at hb
  · rintro ⟨kv, hm, hb⟩
    refine ⟨kv, hm, ?_⟩
    by_cases hk : kv.1 == k
    · rw [if_pos hk]
      simp only [beq_iff_eq] at hb hk ⊢
      rw [← hk, hb]
    · rwa [if_neg hk]

theorem containsKey_upsertKey {α : Type} (l : List (String × α)) (k j : String) (v : α) :
    containsKey (upsertKey l k v) j = true ↔ containsKey l j = true ∨ j = k := by
  unfold upsertKey
  by_cases h : containsKey l k
  · rw [if_pos h, containsKey_map_update]
    constructor
    · exact Or.inl
    · rintro (hj | rfl)
      · exact hj
      · exact h
  · rw [if_neg h]
    simp only [containsKey, List.any_append, List.any_cons, List.any_nil,
      Bool.or_eq_true, beq_iff_eq, Bool.or_false]
    constructor
    · rintro (hj | hj)
      · exact Or.inl hj
      · exact Or.inr hj.symm
    · rintro (hj | rfl)
      · exact Or.inl hj
      · exact Or.inr rfl

/-- C1 counterexample helper computation left abstract: none needed. -/
theorem c1_registry_not_updated_counterexample :
    ((lookupKey (processDatagram [] sampleListenState
        (.parsed "10.0.0.2" "d1" "3.3")).deviceslist "d1").map RegEntry.ip = some "10.0.0.1")
    ∧ ¬ ((lookupKey (processDatagram [] sampleListenState
        (.parsed "10.0.0.2" "d1" "3.3")).deviceslist "d1").map RegEntry.ip = some "10.0.0.2") := by
  constructor
  · rfl
  · rw [show (lookupKey (processDatagram [] sampleListenState
        (.parsed "10.0.0.2" "d1" "3.3")).deviceslist "d1").map RegEntry.ip
        = some "10.0.0.1" from rfl]
    simp

/-- C1 (amended): a UDP announcement whose device id already has a
registry entry leaves the listener state completely unchanged —
appenddevice returns True without writing, so the entry keeps the ip of
its first sighting and nothing is updated on later sightings (there is
no last-seen field at all). -/
theorem c1_amended_existing_entry_unchanged :
    ∀ (tds : List DeviceRecord) (st : ListenState) (pkt : Packet),
      containsKey st.deviceslist (packetId pkt) = true →
      processDatagram tds st pkt = st := by
  intro tds st pkt h
  cases pkt with
  | parsed ip g v =>
    simp only [packetId] at h
    simp [processDatagram, appenddevice, h]
  | unparsed ip =>
    simp only [packetId] at h
    simp [processDatagram, appenddevice, h]

/-- C1 witness: the amended theorem applied to a concrete repeated
sighting of d1 from a new ip. -/
theorem c1_amended_witness :
    processDatagram [] sampleListenState (.parsed "10.0.0.2" "d1" "3.3") = sampleListenState :=
  c1_amended_existing_entry_unchanged [] sampleListenState (.parsed "10.0.0.2" "d1" "3.3")
    (by rfl)

/-- C2 counterexample: a /status request on the live device d1 whose
status call raises leaves the session open — opened is true but closed
is false, refuting closure on every exit path. -/
theorem c2_session_leak_counterexample :
    (statusBranch [] sampleRegistry "d1" .raises).opened = true
    ∧ (statusBranch [] sampleRegistry "d1" .raises).closed = false :=
  ⟨rfl, rfl⟩

/-- C2 (amended): in all four control branches — /status, /set,
/turnon and /turnoff — the session is closed exactly on the success
path: on a normal device return, closed equals opened; when the device
operation raises, the except branch answers with an error message (for
/set, the branch-wide handler's syntax-error object) and never
closes. -/
theorem c2_amended_close_only_on_success :
    (∀ (tds : List DeviceRecord) (dl : RegList) (suffix : String)
        (fields : List (String × JVal)),
        (statusBranch tds dl suffix (.returns fields)).closed =
          (statusBranch tds dl suffix (.returns fields)).opened)
    ∧ (∀ (tds : List DeviceRecord) (dl : RegList) (suffix : String),
        (statusBranch tds dl suffix .raises).closed = false)
    ∧ (∀ (tds : List DeviceRecord) (dl : RegList) (idTok keyTok valTok : String)
        (v : Option JVal),
        (setValueBranch tds dl idTok keyTok valTok (.returns v)).closed =
          (setValueBranch tds dl idTok keyTok valTok (.returns v)).opened)
    ∧ (∀ (tds : List DeviceRecord) (dl : RegList) (idTok keyTok valTok : String),
        (setValueBranch tds dl idTok keyTok valTok .raises).closed = false)
    ∧ (∀ (dl : RegList) (suffix : String) (v : Option JVal),
        (turnonBranch dl suffix (.returns v)).closed =
          (turnonBranch dl suffix (.returns v)).opened)
    ∧ (∀ (dl : RegList) (suffix : String),
        (turnonBranch dl suffix .raises).closed = false)
    ∧ (∀ (dl : RegList) (suffix : String) (v : Option JVal),
        (turnoffBranch dl suffix (.returns v)).closed =
          (turnoffBranch dl suffix (.returns v)).opened)
    ∧ (∀ (dl : RegList) (suffix : String),
        (turnoffBranch dl suffix .raises).closed = false) := by
  refine ⟨?_, ?_, ?_, ?_, ?_, ?_, ?_, ?_⟩ <;> intros <;>
    simp only [statusBranch, setValueBranch, turnonBranch, turnoffBranch] <;>
    repeat' split
  all_goals rfl

/-- C3 counterexample: /turnoff/unknownid against a registry holding
only d1 (named Lamp) answers with id false — the JSON bool left behind
by the failed name lookup — and not with the supplied token. -/
theorem c3_notfound_id_counterexample :
    (turnoffBranch sampleRegistry "unknownid" .raises).msg =
      .json (.jobj [("Error", .jstr "Device ID not found."), ("id", .jbool false)])
    ∧ (turnoffBranch sampleRegistry "unknownid" .raises).msg ≠
      .json (.jobj [("Error", .jstr "Device ID not found."), ("id", .jstr "unknownid")]) := by
  constructor
  · rfl
  · rw [show (turnoffBranch sampleRegistry "unknownid" .raises).msg =
      Resp.json (.jobj [("Error", .jstr "Device ID not found."), ("id", .jbool false)]) from rfl]
    simp

/-- C3 (amended): whenever the /turnoff token (a single path segment)
is neither a registry key nor, after percent-decoding, the name of any
registry entry, the branch answers the structured not-found error whose
id field is the JSON bool false that getDeviceIdByName returned, not
the token the caller supplied. -/
theorem c3_amended_notfound_reports_false :
    ∀ (dl : RegList) (token : String) (oc : DevOp),
      token.data.contains '/' = false →
      containsKey dl token = false →
      dl.all (fun kv => !(kv.2.name == pyUnquote token)) = true →
      (turnoffBranch dl token oc).msg =
        .json (.jobj [("Error", .jstr "Device ID not found."), ("id", .jbool false)]) := by
  intro dl token oc hs hc hn
  have hfind : dl.find? (fun kv => kv.2.name == pyUnquote token) = none := by
    rw [List.find?_eq_none]
    intro kv hm
    have h2 := (List.all_eq_true.mp hn) kv hm
    simpa using h2
  simp only [turnoffBranch, hs, Bool.false_eq_true, if_false, resolveId, hc,
    getDeviceIdByName, hfind, pyvalInKeys, errIdObj, pyvalToJ]
  simp

/-- C3 witness: the amended theorem instantiated at the concrete
unknown token. -/
theorem c3_amended_witness :
    (turnoffBranch sampleRegistry "unknown2" .raises).msg =
      .json (.jobj [("Error", .jstr "Device ID not found."), ("id", .jbool false)]) :=
  c3_amended_notfound_reports_false sampleRegistry "unknown2" .raises (by rfl) (by rfl) (by rfl)

/-- C7: invoking the Cloud Sync Bridge with any empty cloudconfig field
returns the configuration-missing error, leaves tuyadevices unchanged,
and never contacts the Cloud Client. -/
theorem c7_cloud_config_missing :
    ∀ (cfg : CloudConfig) (cloud : CloudResult) (tds : List DeviceRecord),
      (cfg.apiKey = "" ∨ cfg.apiSecret = "" ∨ cfg.apiRegion = "" ∨ cfg.apiDeviceID = "") →
      tuyaCloudRefresh cfg cloud tds =
        (.jobj [("Error", .jstr "Cloud API config missing")], tds, false) := by
  intro cfg cloud tds h
  unfold tuyaCloudRefresh
  rw [if_pos]
  rcases h with h | h | h | h <;> simp [h]

/-- C7 witness: a concrete empty apiKey with a live Cloud Client oracle
still yields the structured error and no mutation. -/
theorem c7_witness :
    tuyaCloudRefresh ⟨"", "s", "r", "d"⟩ (.ok []) [] =
      (.jobj [("Error", .jstr "Cloud API config missing")], [], false) :=
  c7_cloud_config_missing ⟨"", "s", "r", "d"⟩ (.ok []) [] (Or.inl rfl)

/-- Helper: key membership after the offlineDevices fold. -/
theorem offline_fold_containsKey (dl : RegList) :
    ∀ (tds : List DeviceRecord) (off : List (String × OfflineInfo)) (k : String),
      containsKey (tds.foldl (fun off d =>
        if containsKey dl d.id then off
        else upsertKey off d.id { name := d.name, mac := d.mac }) off) k = true ↔
      containsKey off k = true ∨ (k ∈ tds.map (fun d => d.id) ∧ containsKey dl k = false) := by
  intro tds
  induction tds with
  | nil =>
    intro off k
    simp
  | cons d tds ih =>
    intro off k
    rw [List.foldl_cons]
    by_cases hc : containsKey dl d.id = true
    · rw [if_pos hc, ih]
      simp only [List.map_cons, List.mem_cons]
      constructor
      · rintro (h | ⟨h1, h2⟩)
        · exact Or.inl h
        · exact Or.inr ⟨Or.inr h1, h2⟩
      · rintro (h | ⟨h1 | h1, h2⟩)
        · exact Or.inl h
        · rw [h1, hc] at h2
          cases h2
        · exact Or.inr ⟨h1, h2⟩
    · rw [if_neg hc, ih]
      have hc' : containsKey dl d.id = false := by
        cases h : containsKey dl d.id
        · rfl
        · exact absurd h hc
      simp only [List.map_cons, List.mem_cons]
      constructor
      · rintro (h | ⟨h1, h2⟩)
        · rcases (containsKey_upsertKey off d.id k _).mp h with h' | h'
          · exact Or.inl h'
          · exact Or.inr ⟨Or.inl h', by rw [h']; exact hc'⟩
        · exact Or.inr ⟨Or.inr h1, h2⟩
      · rintro (h | ⟨h1 | h1, h2⟩)
        · exact Or.inl ((containsKey_upsertKey off d.id k _).mpr (Or.inl h))
        · exact Or.inl ((containsKey_upsertKey off d.id k _).mpr (Or.inr h1))
        · exact Or.inr ⟨h1, h2⟩

/-- C6: the /offline computation answers exactly the ids of the
credential store that are absent from the registry. -/
theorem c6_offline_exact_set_difference :
    ∀ (tds : List DeviceRecord) (dl : RegList) (k : String),
      containsKey (offlineDevices tds dl) k = true ↔
        (k ∈ tds.map (fun d => d.id) ∧ containsKey dl k = false) := by
  intro tds dl k
  unfold offlineDevices
  rw [offline_fold_containsKey]
  simp [containsKey]

/-- C6 witness: a concrete credential record absent from the registry
is offline, through the theorem. -/
theorem c6_witness :
    containsKey (offlineDevices [sampleOfflineRecord] sampleRegistry) "c9" = true :=
  (c6_offline_exact_set_difference [sampleOfflineRecord] sampleRegistry "c9").mpr
    ⟨by decide, by rfl⟩

/-- Helper: Char.toLower fixes ASCII digits. -/
theorem toLower_digit (c : Char) (h : c.isDigit = true) : c.toLower = c := by
  simp only [Char.isDigit, Bool.and_eq_true, decide_eq_true_iff, UInt32.le_def,
    BitVec.le_def] at h
  simp only [Char.toLower, Char.toNat]
  have h2 : c.val.toNat ≤ 57 := h.2
  rw [if_neg]
  omega

/-- Helper: lowering a digit string is the identity. -/
theorem pyLower_digits (s : List Char) (h : s.all Char.isDigit = true) : pyLower s = s := by
  unfold pyLower
  induction s with
  | nil => rfl
  | cons c t ih =>
    simp only [List.all_cons, Bool.and_eq_true] at h
    simp only [List.map_cons, toLower_digit c h.1, ih h.2]

/-- Helper: splitting s ++ [sep] on sep when s is separator-free gives
the segment s followed by an empty segment. -/
theorem pySplitChar_no_sep (sep : Char) (s : List Char) (h : sep ∉ s) :
    pySplitChar sep (s ++ [sep]) = [s, []] := by
  induction s with
  | nil => simp [pySplitChar]
  | cons c t ih =>
    simp only [List.mem_cons, not_or] at h
    have hc : ¬ c = sep := fun hh => h.1 (hh ▸ rfl)
    rw [List.cons_append]
    unfold pySplitChar
    rw [if_neg hc, ih h.2]

/-- C8: the /set value coercion behaves as specified on each class of
token: the token true or false becomes the bool, a double-quoted token
becomes the enclosed literal, an all-digit token becomes the integer,
and any token matching none of the branch conditions passes through
unchanged as a string. -/
theorem c8_set_value_coercion :
    (coerceChars ['t', 'r', 'u', 'e'] = .pybool true
      ∧ coerceChars ['f', 'a', 'l', 's', 'e'] = .pybool false)
    ∧ (∀ s : List Char, '"' ∉ s → coerceChars ('"' :: s ++ ['"']) = .pystr s)
    ∧ (∀ s : List Char, s ≠ [] → s.all Char.isDigit = true →
        coerceChars s = .pyint (pyIntOfDigits s))
    ∧ (∀ s : List Char, pyLower s ≠ ['t', 'r', 'u', 'e'] →
        pyLower s ≠ ['f', 'a', 'l', 's', 'e'] →
        s.head? ≠ some '"' → pyIsNumeric s = false → coerceChars s = .pystr s) := by
  refine ⟨⟨by decide, by decide⟩, ?_, ?_, ?_⟩
  · intro s h
    have h1 : pyLower ('"' :: s ++ ['"']) ≠ ['t', 'r', 'u', 'e'] := by
      simp only [pyLower, List.cons_append, List.map_cons]
      intro heq
      injection heq with ha _
      exact absurd ha (by decide)
    have h2 : pyLower ('"' :: s ++ ['"']) ≠ ['f', 'a', 'l', 's', 'e'] := by
      simp only [pyLower, List.cons_append, List.map_cons]
      intro heq
      injection heq with ha _
      exact absurd ha (by decide)
    unfold coerceChars
    rw [if_neg h1, if_neg h2, if_pos (by simp)]
    have hsplit : pySplitChar '"' ('"' :: s ++ ['"']) = [] :: [s, []] := by
      rw [List.cons_append]
      unfold pySplitChar
      rw [if_pos rfl, pySplitChar_no_sep '"' s h]
    rw [hsplit]
    rfl
  · intro s hne hall
    have hl := pyLower_digits s hall
    have h1 : pyLower s ≠ ['t', 'r', 'u', 'e'] := by
      rw [hl]
      intro heq
      rw [heq] at hall
      exact absurd hall (by decide)
    have h2 : pyLower s ≠ ['f', 'a', 'l', 's', 'e'] := by
      rw [hl]
      intro heq
      rw [heq] at hall
      exact absurd hall (by decide)
    have h3 : s.head? ≠ some '"' := by
      cases s with
      | nil => simp
      | cons c t =>
        intro heq
        simp only [List.head?_cons] at heq
        injection heq with heq'
        simp only [List.all_cons, Bool.and_eq_true] at hall
        rw [heq'] at hall
        exact absurd hall.1 (by decide)
    have h4 : pyIsNumeric s = true := by
      unfold pyIsNumeric
      rw [hall]
      cases s with
      | nil => exact absurd rfl hne
      | cons c t => rfl
    unfold coerceChars
    rw [if_neg h1, if_neg h2, if_neg h3, if_pos h4]
  · intro s h1 h2 h3 h4
    unfold coerceChars
    rw [if_neg h1, if_neg h2, if_neg h3, if_neg (by simp [h4])]

/-- C8 witness: the coercion theorem applied to one concrete token of
each hypothesis-bearing class. -/
theorem c8_witness :
    coerceChars ('"' :: ['a', 'b'] ++ ['"']) = DpsValue.pystr ['a', 'b']
    ∧ coerceChars ['4', '2'] = DpsValue.pyint 42
    ∧ coerceChars ['o', 'n'] = DpsValue.pystr ['o', 'n'] := by
  refine ⟨c8_set_value_coercion.2.1 ['a', 'b'] (by decide), ?_, ?_⟩
  · have h := c8_set_value_coercion.2.2.1 ['4', '2'] (by decide) (by decide)
    rw [h]
    rfl
  · exact c8_set_value_coercion.2.2.2 ['o', 'n'] (by decide) (by decide) (by decide) (by decide)

/-- Helper: the key-resolution fold of the /set branch leaves the key
unchanged across records whose id does not match. -/
theorem resolveDpsKey_fold_skip (idv : PyVal) (l : List DeviceRecord) (k : String)
    (h : ∀ x ∈ l, pyEqStr idv x.id = false) :
    l.foldl (fun k x =>
      if pyEqStr idv x.id then
        match x.mapping with
        | some m =>
          match m.find? (fun p => p.2 == k) with
          | some p => p.1
          | none => k
        | none => k
      else k) k = k := by
  induction l generalizing k with
  | nil => rfl
  | cons x t ih =>
    have hx := h x (List.mem_cons_self x t)
    simp only [List.foldl_cons, hx, Bool.false_eq_true, if_false]
    exact ih k (fun y hy => h y (List.mem_cons_of_mem x hy))

/-- C9: a non-numeric /set key token is resolved through the dpsMapping
of the unique credential record matching the resolved device id — the
pair sent to the device carries the numeric index of the first mapping
entry whose code equals the token, together with the coerced value. -/
theorem c9_dps_code_resolution :
    ∀ (pre post : List DeviceRecord) (r : DeviceRecord) (dl : RegList)
      (idTok keyTok valTok id0 : String) (m : List (String × String)) (p : String × String),
      pyIsNumeric keyTok.data = false →
      resolveId dl idTok = .str id0 →
      containsKey dl id0 = true →
      (∀ x ∈ pre, x.id ≠ id0) →
      (∀ x ∈ post, x.id ≠ id0) →
      r.id = id0 →
      r.mapping = some m →
      m.find? (fun q => q.2 == keyTok) = some p →
      (setBranch (pre ++ r :: post) dl idTok keyTok valTok).2 =
        some (p.1, coerceChars (pyUnquoteChars valTok.data)) := by
  intro pre post r dl idTok keyTok valTok id0 m p hnum hres hin hpre hpost hrid hmap hfind
  have hpre' : ∀ x ∈ pre, pyEqStr (.str id0) x.id = false := by
    intro x hx
    simp only [pyEqStr, beq_eq_false_iff_ne, ne_eq]
    exact fun hh => (hpre x hx) hh.symm
  have hpost' : ∀ x ∈ post, pyEqStr (.str id0) x.id = false := by
    intro x hx
    simp only [pyEqStr, beq_eq_false_iff_ne, ne_eq]
    exact fun hh => (hpost x hx) hh.symm
  have hkey : resolveDpsKey (pre ++ r :: post) (.str id0) keyTok = p.1 := by
    unfold resolveDpsKey
    rw [if_neg (by simp [hnum]), List.foldl_append,
      resolveDpsKey_fold_skip (.str id0) pre keyTok hpre', List.foldl_cons]
    have hr : pyEqStr (.str id0) r.id = true := by simp [pyEqStr, hrid]
    simp only [hr, if_true, hmap, hfind]
    exact resolveDpsKey_fold_skip (.str id0) post p.1 hpost'
  simp only [setBranch, hres, pyvalInKeys, hin, if_true, hkey]

/-- C9 witness: the Plug1 scenario — /set/Plug1/switch_1/true with the
mapping entry code switch_1 on index 1 sends data point 1 the bool
true. -/
theorem c9_witness :
    (setBranch [samplePlugRecord] samplePlugRegistry "Plug1" "switch_1" "true").2 =
      some ("1", DpsValue.pybool true) := by
  have h := c9_dps_code_resolution [] [] samplePlugRecord samplePlugRegistry
    "Plug1" "switch_1" "true" "abc123" [("1", "switch_1")] ("1", "switch_1")
    (by decide) (by decide) (by decide) (by simp) (by simp) rfl rfl (by decide)
  rw [show ([] ++ samplePlugRecord :: [] : List DeviceRecord) = [samplePlugRecord] from rfl] at h
  rw [h]
  rfl

/-- Helper: one resolution step only ever removes retrydevices entries. -/
theorem resolveStep_rd_sub (tds : List DeviceRecord) (acc : RegList × RetryList × List String)
    (x : String) :
    ∀ kv ∈ (resolveStep tds acc x).2.1, kv ∈ acc.2.1 := by
  intro kv h
  simp only [resolveStep] at h
  split at h
  · dsimp only at h
    split at h
    · exact List.mem_of_mem_filter h
    · exact h
  · exact h

/-- Helper: the whole resolution fold only ever removes retrydevices
entries. -/
theorem fold_rd_sub (tds : List DeviceRecord) :
    ∀ (nd : List String) (acc : RegList × RetryList × List String) (kv : String × Int),
      kv ∈ (nd.foldl (resolveStep tds) acc).2.1 → kv ∈ acc.2.1 := by
  intro nd
  induction nd with
  | nil =>
    intro acc kv h
    exact h
  | cons x t ih =>
    intro acc kv h
    rw [List.foldl_cons] at h
    exact resolveStep_rd_sub tds acc x kv (ih (resolveStep tds acc x) kv h)

/-- Helper: deleting a key removes it. -/
theorem containsKey_removeKey_self {α : Type} (l : List (String × α)) (k : String) :
    containsKey (removeKey l k) k = false := by
  rw [containsKey, List.any_eq_false]
  intro kv hkv
  have h2 := (List.mem_filter.mp hkv).2
  simpa using h2

/-- Helper: key absence transfers along an entry-wise inclusion. -/
theorem containsKey_false_of_sub {α : Type} {l1 l2 : List (String × α)} {k : String}
    (hsub : ∀ kv ∈ l1, kv ∈ l2) (h : containsKey l2 k = false) : containsKey l1 k = false := by
  rw [containsKey, List.any_eq_false]
  intro kv hkv
  rw [containsKey, List.any_eq_false] at h
  exact h kv (hsub kv hkv)

/-- Helper: a step firing on a resolvable id clears it from
retrydevices. -/
theorem resolveStep_rd_removed (tds : List DeviceRecord)
    (acc : RegList × RetryList × List String) (idd : String)
    (hres : (tuyaLookup tds idd).1 ≠ "" ∨ (tuyaLookup tds idd).2.1 ≠ "") :
    containsKey (resolveStep tds acc idd).2.1 idd = false := by
  simp only [resolveStep]
  rw [if_pos hres]
  dsimp only
  split
  · exact containsKey_removeKey_self _ _
  · next hnc => simpa using hnc

/-- Helper: a step never brings a cleared id back. -/
theorem resolveStep_rd_false (tds : List DeviceRecord)
    (acc : RegList × RetryList × List String) (x idd : String)
    (h : containsKey acc.2.1 idd = false) :
    containsKey (resolveStep tds acc x).2.1 idd = false :=
  containsKey_false_of_sub (resolveStep_rd_sub tds acc x) h

/-- Helper: the fold never brings a cleared id back. -/
theorem fold_rd_false (tds : List DeviceRecord) :
    ∀ (nd : List String) (acc : RegList × RetryList × List String) (idd : String),
      containsKey acc.2.1 idd = false →
      containsKey ((nd.foldl (resolveStep tds) acc)).2.1 idd = false := by
  intro nd
  induction nd with
  | nil =>
    intro acc idd h
    exact h
  | cons x t ih =>
    intro acc idd h
    rw [List.foldl_cons]
    exact ih _ idd (resolveStep_rd_false tds acc x idd h)

/-- Helper: a resolvable id listed in newdevices ends the fold outside
retrydevices. -/
theorem fold_rd_removed (tds : List DeviceRecord) :
    ∀ (nd : List String) (acc : RegList × RetryList × List String) (idd : String),
      idd ∈ nd →
      ((tuyaLookup tds idd).1 ≠ "" ∨ (tuyaLookup tds idd).2.1 ≠ "") →
      containsKey ((nd.foldl (resolveStep tds) acc)).2.1 idd = false := by
  intro nd
  induction nd with
  | nil =>
    intro acc idd h
    cases h
  | cons x t ih =>
    intro acc idd hmem hres
    rw [List.foldl_cons]
    by_cases hx : x = idd
    · subst hx
      exact fold_rd_false tds t _ x (resolveStep_rd_removed tds acc x hres)
    · have hmem' : idd ∈ t := by
        rcases List.mem_cons.mp hmem with h | h
        · exact absurd h.symm hx
        · exact h
      exact ih _ idd hmem' hres

/-- Helper: a step keeps every id already recorded as found. -/
theorem resolveStep_found_mono (tds : List DeviceRecord)
    (acc : RegList × RetryList × List String) (x : String) :
    ∀ d ∈ acc.2.2, d ∈ (resolveStep tds acc x).2.2 := by
  intro d h
  simp only [resolveStep]
  split
  · dsimp only
    exact List.mem_append_left _ h
  · exact h

/-- Helper: the fold keeps every id already recorded as found. -/
theorem fold_found_mono (tds : List DeviceRecord) :
    ∀ (nd : List String) (acc : RegList × RetryList × List String),
      ∀ d ∈ acc.2.2, d ∈ (nd.foldl (resolveStep tds) acc).2.2 := by
  intro nd
  induction nd with
  | nil =>
    intro acc d h
    exact h
  | cons x t ih =>
    intro acc d h
    rw [List.foldl_cons]
    exact ih _ d (resolveStep_found_mono tds acc x d h)

/-- Helper: a resolvable id of newdevices ends the fold in the found
list. -/
theorem fold_found_of_mem (tds : List DeviceRecord) :
    ∀ (nd : List String) (acc : RegList × RetryList × List String) (idd : String),
      idd ∈ nd →
      ((tuyaLookup tds idd).1 ≠ "" ∨ (tuyaLookup tds idd).2.1 ≠ "") →
      idd ∈ (nd.foldl (resolveStep tds) acc).2.2 := by
  intro nd
  induction nd with
  | nil =>
    intro acc idd h
    cases h
  | cons x t ih =>
    intro acc idd hmem hres
    rw [List.foldl_cons]
    by_cases hx : x = idd
    · subst hx
      apply fold_found_mono tds t _ x
      simp only [resolveStep]
      rw [if_pos hres]
      dsimp only
      exact List.mem_append_right _ (List.mem_singleton.mpr rfl)
    · have hmem' : idd ∈ t := by
        rcases List.mem_cons.mp hmem with h | h
        · exact absurd h.symm hx
        · exact h
      exact ih _ idd hmem' hres

/-- Helper: an id the fold reports as found was already found or is a
resolvable member of newdevices. -/
theorem fold_found_src (tds : List DeviceRecord) :
    ∀ (nd : List String) (acc : RegList × RetryList × List String) (idd : String),
      idd ∈ (nd.foldl (resolveStep tds) acc).2.2 →
      idd ∈ acc.2.2 ∨
        (idd ∈ nd ∧ ((tuyaLookup tds idd).1 ≠ "" ∨ (tuyaLookup tds idd).2.1 ≠ "")) := by
  intro nd
  induction nd with
  | nil =>
    intro acc idd h
    exact Or.inl h
  | cons x t ih =>
    intro acc idd h
    rw [List.foldl_cons] at h
    rcases ih _ idd h with h1 | ⟨h1, h2⟩
    · simp only [resolveStep] at h1
      split at h1
      · next hcond =>
          dsimp only at h1
          rcases List.mem_append.mp h1 with h2 | h2
          · exact Or.inl h2
          · have hx : idd = x := List.mem_singleton.mp h2
            subst hx
            exact Or.inr ⟨List.mem_cons_self _ _, hcond⟩
      · next => exact Or.inl h1
    · exact Or.inr ⟨List.mem_cons_of_mem x h1, h2⟩

/-- Helper: find? over a key-preserving map commutes with the map. -/
theorem find?_key_map {α : Type} (f : (String × α) → (String × α))
    (hf : ∀ kv, (f kv).1 = kv.1) (idd : String) :
    ∀ l : List (String × α), (l.map f).find? (fun kv => kv.1 == idd) =
      (l.find? (fun kv => kv.1 == idd)).map f := by
  intro l
  induction l with
  | nil => rfl
  | cons kv t ih =>
    rw [List.map_cons]
    by_cases hk : (kv.1 == idd) = true
    · have hk1 : ((f kv).1 == idd) = true := by
        rw [hf kv]
        exact hk
      rw [@List.find?_cons_of_pos _ (fun kv => kv.1 == idd) (f kv) (t.map f) hk1,
        @List.find?_cons_of_pos _ (fun kv => kv.1 == idd) kv t hk]
      rfl
    · have hk1 : ¬ ((f kv).1 == idd) = true := by
        rw [hf kv]
        exact hk
      rw [@List.find?_cons_of_neg _ (fun kv => kv.1 == idd) (f kv) (t.map f) hk1,
        @List.find?_cons_of_neg _ (fun kv => kv.1 == idd) kv t hk]
      exact ih

/-- Helper: how a registry write at one id reads back at another. -/
theorem lookupKey_updateEntryFields (dl : RegList) (devid dname dkey mac idd : String) :
    lookupKey (updateEntryFields dl devid dname dkey mac) idd =
      if devid = idd then (lookupKey dl idd).map (fun e => updEntry e dname dkey mac)
      else lookupKey dl idd := by
  unfold updateEntryFields lookupKey
  rw [find?_key_map _ (fun kv => by split <;> rfl) idd dl]
  cases hfind : dl.find? (fun kv => kv.1 == idd) with
  | none =>
    split <;> rfl
  | some kv =>
    have hkey : kv.1 = idd := by
      have h2 := List.find?_some hfind
      simpa using h2
    by_cases hdev : devid = idd
    · rw [if_pos hdev]
      simp only [Option.map_some']
      rw [if_pos (hkey.trans hdev.symm)]
    · rw [if_neg hdev]
      simp only [Option.map_some']
      rw [if_neg (fun hh : kv.1 = devid => hdev (hh ▸ hkey))]

/-- Helper: writing the same fields twice is the same as once. -/
theorem updEntry_idem (e : RegEntry) (a b c : String) :
    updEntry (updEntry e a b c) a b c = updEntry e a b c := rfl

/-- Helper: a step leaves the registry entry of an id whose lookup is
empty untouched. -/
theorem resolveStep_dl_unres (tds : List DeviceRecord)
    (acc : RegList × RetryList × List String) (x idd : String)
    (hun1 : (tuyaLookup tds idd).1 = "") (hun2 : (tuyaLookup tds idd).2.1 = "") :
    lookupKey (resolveStep tds acc x).1 idd = lookupKey acc.1 idd := by
  simp only [resolveStep]
  split
  · next hcond =>
      have hne : ¬ (x = idd) := by
        intro hx
        subst hx
        rcases hcond with h | h
        · exact h hun1
        · exact h hun2
      dsimp only
      rw [lookupKey_updateEntryFields, if_neg hne]
  · rfl

/-- Helper: the fold leaves the registry entry of an id whose lookup is
empty untouched. -/
theorem fold_dl_unres (tds : List DeviceRecord) (idd : String)
    (hun1 : (tuyaLookup tds idd).1 = "") (hun2 : (tuyaLookup tds idd).2.1 = "") :
    ∀ (nd : List String) (acc : RegList × RetryList × List String),
      lookupKey ((nd.foldl (resolveStep tds) acc)).1 idd = lookupKey acc.1 idd := by
  intro nd
  induction nd with
  | nil =>
    intro acc
    rfl
  | cons x t ih =>
    intro acc
    rw [List.foldl_cons, ih, resolveStep_dl_unres tds acc x idd hun1 hun2]

/-- Helper: once the registry entry of an id holds its lookup values, a
step keeps them (a repeated write is the identical write). -/
theorem resolveStep_dl_target (tds : List DeviceRecord)
    (acc : RegList × RetryList × List String) (x idd dn dk dm : String) (t0 : RegEntry)
    (ht : tuyaLookup tds idd = (dn, dk, dm))
    (h : lookupKey acc.1 idd = some (updEntry t0 dn dk dm)) :
    lookupKey (resolveStep tds acc x).1 idd = some (updEntry t0 dn dk dm) := by
  simp only [resolveStep]
  split
  · dsimp only
    rw [lookupKey_updateEntryFields]
    by_cases hx : x = idd
    · subst hx
      rw [if_pos rfl, h, ht]
      simp only [Option.map_some']
      rw [updEntry_idem]
    · rw [if_neg hx]
      exact h
  · exact h

/-- Helper: the fold keeps a registry entry that already holds its
lookup values. -/
theorem fold_dl_target (tds : List DeviceRecord) (idd dn dk dm : String) (t0 : RegEntry)
    (ht : tuyaLookup tds idd = (dn, dk, dm)) :
    ∀ (nd : List String) (acc : RegList × RetryList × List String),
      lookupKey acc.1 idd = some (updEntry t0 dn dk dm) →
      lookupKey ((nd.foldl (resolveStep tds) acc)).1 idd = some (updEntry t0 dn dk dm) := by
  intro nd
  induction nd with
  | nil =>
    intro acc h
    exact h
  | cons x t ih =>
    intro acc h
    rw [List.foldl_cons]
    exact ih _ (resolveStep_dl_target tds acc x idd dn dk dm t0 ht h)

/-- Helper: a resolvable id of newdevices with a live registry entry
ends the fold with that entry rewritten to its looked-up name, key and
mac. -/
theorem fold_dl_updates (tds : List DeviceRecord) (idd dn dk dm : String) (e : RegEntry)
    (ht : tuyaLookup tds idd = (dn, dk, dm)) (hres : dn ≠ "" ∨ dk ≠ "") :
    ∀ (nd : List String) (acc : RegList × RetryList × List String),
      idd ∈ nd → lookupKey acc.1 idd = some e →
      lookupKey ((nd.foldl (resolveStep tds) acc)).1 idd = some (updEntry e dn dk dm) := by
  intro nd
  induction nd with
  | nil =>
    intro acc h
    cases h
  | cons x t ih =>
    intro acc hmem hl
    rw [List.foldl_cons]
    by_cases hx : x = idd
    · subst hx
      apply fold_dl_target tds x dn dk dm e ht t
      simp only [resolveStep, ht]
      rw [if_pos hres]
      dsimp only
      rw [lookupKey_updateEntryFields, if_pos rfl, hl]
      rfl
    · have hmem' : idd ∈ t := by
        rcases List.mem_cons.mp hmem with h | h
        · exact absurd h.symm hx
        · exact h
      have hstep : lookupKey (resolveStep tds acc x).1 idd = lookupKey acc.1 idd := by
        simp only [resolveStep]
        split
        · dsimp only
          rw [lookupKey_updateEntryFields, if_neg hx]
        · rfl
      exact ih _ hmem' (by rw [hstep]; exact hl)

/-- Helper: a dict containing a key is nonempty. -/
theorem length_pos_of_containsKey {α : Type} (l : List (String × α)) (k : String)
    (h : containsKey l k = true) : 0 < l.length := by
  rcases (containsKey_iff_exists l k).mp h with ⟨kv, hkv, _⟩
  exact List.length_pos.mpr (List.ne_nil_of_mem hkv)

/-- Helper: the pass works on the unrefreshed store when the wildcard
is pending. -/
theorem passTds_star (c : CloudResult) (s : ServerState)
    (h : containsKey s.retrydevices "*" = true) : passTds c s = s.tuyadevices := by
  unfold passTds
  rw [if_pos h]

/-- Helper: with an empty apiKey the refresh never replaces the store,
so the pass works on the unchanged tuyadevices. -/
theorem passTds_of_empty_key (c : CloudResult) (s : ServerState)
    (h : s.cloudconfig.apiKey = "") : passTds c s = s.tuyadevices := by
  unfold passTds
  split
  · rfl
  · unfold tuyaCloudRefresh
    simp [h]

/-- Helper: decrement-and-expire keeps no binding of a key absent
before it. -/
theorem rd2_key_sub (rd1 : RetryList) (idd : String)
    (h : containsKey rd1 idd = false) :
    containsKey ((rd1.map (fun kv => (kv.1, kv.2 - 1))).filter
      (fun kv => decide ((1 : Int) ≤ kv.2))) idd = false := by
  rw [containsKey, List.any_eq_false]
  intro kv hkv
  have hm := (List.mem_filter.mp hkv).1
  rcases List.mem_map.mp hm with ⟨kw, hkw, hkeq⟩
  rw [containsKey, List.any_eq_false] at h
  have h2 := h kw hkw
  rw [← hkeq]
  simpa using h2

/-- Helper: values surviving decrement-and-expire under a uniform
budget are the decremented budget and still at least one. -/
theorem rd2_values (rd1 : RetryList) (idd : String) (b : Int)
    (hval : ∀ v : Int, (idd, v) ∈ rd1 → v = b) :
    ∀ v : Int, (idd, v) ∈ ((rd1.map (fun kv => (kv.1, kv.2 - 1))).filter
      (fun kv => decide ((1 : Int) ≤ kv.2))) → v = b - 1 ∧ 1 ≤ v := by
  intro v hv
  have hf := (List.mem_filter.mp hv).2
  have hm := (List.mem_filter.mp hv).1
  rcases List.mem_map.mp hm with ⟨kw, hkw, hkeq⟩
  obtain ⟨h1, h2⟩ := Prod.mk.inj hkeq
  have hmem2 : (idd, kw.2) ∈ rd1 := by
    rw [← h1]
    exact hkw
  have hb := hval kw.2 hmem2
  constructor
  · omega
  · simpa using hf

/-- Helper: a uniform budget of at most one is wiped out by
decrement-and-expire. -/
theorem rd2_removed_of_budget_le_one (rd1 : RetryList) (idd : String) (b : Int)
    (hval : ∀ v : Int, (idd, v) ∈ rd1 → v = b) (hb : b ≤ 1) :
    containsKey ((rd1.map (fun kv => (kv.1, kv.2 - 1))).filter
      (fun kv => decide ((1 : Int) ≤ kv.2))) idd = false := by
  cases hc : containsKey ((rd1.map (fun kv => (kv.1, kv.2 - 1))).filter
      (fun kv => decide ((1 : Int) ≤ kv.2))) idd
  · rfl
  · exfalso
    rcases (containsKey_iff_exists _ _).mp hc with ⟨kv, hkv, hkey⟩
    have hmem2 : (idd, kv.2) ∈ (rd1.map (fun kv => (kv.1, kv.2 - 1))).filter
        (fun kv => decide ((1 : Int) ≤ kv.2)) := by
      rw [← hkey]
      exact hkv
    rcases rd2_values rd1 idd b hval kv.2 hmem2 with ⟨hveq, hvge⟩
    omega

/-- Helper: a pass never brings back a cleared retrydevices key. -/
theorem resolvePass_rd_false (now : Nat) (c : CloudResult) (s : ServerState) (idd : String)
    (h : containsKey s.retrydevices idd = false) :
    containsKey (resolvePass now c s).retrydevices idd = false := by
  simp only [resolvePass]
  split
  · dsimp only
    apply rd2_key_sub
    exact containsKey_false_of_sub
      (fun kv hkv => fold_rd_sub _ s.newdevices _ kv hkv) h
  · exact h

/-- Helper: under a uniform budget, a pass either clears the id from
retrydevices or leaves every surviving binding at the decremented
budget (at least two beforehand). -/
theorem resolvePass_rd_budget (now : Nat) (c : CloudResult) (s : ServerState)
    (idd : String) (b : Int)
    (hmem : containsKey s.retrydevices idd = true)
    (hval : ∀ v : Int, (idd, v) ∈ s.retrydevices → v = b) :
    containsKey (resolvePass now c s).retrydevices idd = false
    ∨ (2 ≤ b ∧ ∀ v : Int, (idd, v) ∈ (resolvePass now c s).retrydevices → v = b - 1) := by
  have hlen := length_pos_of_containsKey s.retrydevices idd hmem
  simp only [resolvePass]
  rw [if_pos hlen]
  dsimp only
  have hval1 : ∀ v : Int, (idd, v) ∈
      (s.newdevices.foldl (resolveStep (passTds c s))
        (s.deviceslist, s.retrydevices, [])).2.1 → v = b :=
    fun v hv => hval v (fold_rd_sub _ s.newdevices _ (idd, v) hv)
  by_cases hb : b ≤ 1
  · exact Or.inl (rd2_removed_of_budget_le_one _ idd b hval1 hb)
  · refine Or.inr ⟨by omega, ?_⟩
    intro v hv
    exact (rd2_values _ idd b hval1 v hv).1

/-- Helper: a resolvable newdevices id with a live entry is rewritten
by the pass. -/
theorem resolvePass_dl_resolves (now : Nat) (c : CloudResult) (s : ServerState)
    (devid : String) (e : RegEntry) (dn dk dm : String)
    (hlen : 0 < s.retrydevices.length)
    (hmem : devid ∈ s.newdevices)
    (hl : lookupKey s.deviceslist devid = some e)
    (ht : tuyaLookup (passTds c s) devid = (dn, dk, dm))
    (hres : dn ≠ "" ∨ dk ≠ "") :
    lookupKey (resolvePass now c s).deviceslist devid = some (updEntry e dn dk dm) := by
  simp only [resolvePass]
  rw [if_pos hlen]
  dsimp only
  exact fold_dl_updates (passTds c s) devid dn dk dm e ht hres s.newdevices _ hmem hl

/-- Helper: an id whose credentials stay unknown keeps its registry
entry and the store through a pass with a dead cloud configuration. -/
theorem resolvePass_frozen (now : Nat) (c : CloudResult) (s : ServerState) (idd : String)
    (hKey : s.cloudconfig.apiKey = "")
    (hun1 : (tuyaLookup s.tuyadevices idd).1 = "")
    (hun2 : (tuyaLookup s.tuyadevices idd).2.1 = "") :
    lookupKey (resolvePass now c s).deviceslist idd = lookupKey s.deviceslist idd
    ∧ (resolvePass now c s).tuyadevices = s.tuyadevices
    ∧ (resolvePass now c s).cloudconfig = s.cloudconfig := by
  have htds := passTds_of_empty_key c s hKey
  simp only [resolvePass]
  split
  · dsimp only
    rw [htds]
    exact ⟨fold_dl_unres s.tuyadevices idd hun1 hun2 s.newdevices _, rfl, rfl⟩
  · exact ⟨rfl, rfl, rfl⟩

/-- Helper: once cleared, an id stays out of retrydevices over any
sequence of passes. -/
theorem runPasses_rd_false :
    ∀ (ps : List (Nat × CloudResult)) (s : ServerState) (idd : String),
      containsKey s.retrydevices idd = false →
      containsKey (runPasses ps s).retrydevices idd = false := by
  intro ps
  induction ps with
  | nil =>
    intro s idd h
    exact h
  | cons p t ih =>
    intro s idd h
    exact ih _ idd (resolvePass_rd_false p.1 p.2 s idd h)

/-- Helper: with a dead cloud configuration and unresolvable id, any
sequence of passes keeps the registry entry, store and configuration. -/
theorem runPasses_frozen :
    ∀ (ps : List (Nat × CloudResult)) (s : ServerState) (idd : String),
      s.cloudconfig.apiKey = "" →
      (tuyaLookup s.tuyadevices idd).1 = "" →
      (tuyaLookup s.tuyadevices idd).2.1 = "" →
      lookupKey (runPasses ps s).deviceslist idd = lookupKey s.deviceslist idd
      ∧ (runPasses ps s).tuyadevices = s.tuyadevices
      ∧ (runPasses ps s).cloudconfig = s.cloudconfig := by
  intro ps
  induction ps with
  | nil =>
    intro s idd _ _ _
    exact ⟨rfl, rfl, rfl⟩
  | cons p t ih =>
    intro s idd hKey hun1 hun2
    rcases resolvePass_frozen p.1 p.2 s idd hKey hun1 hun2 with ⟨hdl, htds, hcfg⟩
    have hKey' : (resolvePass p.1 p.2 s).cloudconfig.apiKey = "" := by rw [hcfg]; exact hKey
    have hun1' : (tuyaLookup (resolvePass p.1 p.2 s).tuyadevices idd).1 = "" := by
      rw [htds]; exact hun1
    have hun2' : (tuyaLookup (resolvePass p.1 p.2 s).tuyadevices idd).2.1 = "" := by
      rw [htds]; exact hun2
    rcases ih (resolvePass p.1 p.2 s) idd hKey' hun1' hun2' with ⟨hdl2, htds2, hcfg2⟩
    refine ⟨?_, ?_, ?_⟩
    · rw [show runPasses (p :: t) s = runPasses t (resolvePass p.1 p.2 s) from rfl, hdl2, hdl]
    · rw [show runPasses (p :: t) s = runPasses t (resolvePass p.1 p.2 s) from rfl, htds2, htds]
    · rw [show runPasses (p :: t) s = runPasses t (resolvePass p.1 p.2 s) from rfl, hcfg2, hcfg]

/-- Helper: a uniform budget of b is cleared within b passes. -/
theorem runPasses_rd_removed :
    ∀ (ps : List (Nat × CloudResult)) (s : ServerState) (idd : String) (b : Nat),
      (∀ v : Int, (idd, v) ∈ s.retrydevices → v = (b : Int)) →
      1 ≤ b → b ≤ ps.length →
      containsKey (runPasses ps s).retrydevices idd = false := by
  intro ps
  induction ps with
  | nil =>
    intro s idd b _ hb hlen
    simp at hlen
    omega
  | cons p t ih =>
    intro s idd b hval hb hlen
    rw [show runPasses (p :: t) s = runPasses t (resolvePass p.1 p.2 s) from rfl]
    by_cases hmem : containsKey s.retrydevices idd = true
    · rcases resolvePass_rd_budget p.1 p.2 s idd (b : Int) hmem hval with h | ⟨h2b, hval'⟩
      · exact runPasses_rd_false t _ idd h
      · have hb2 : 2 ≤ b := by exact_mod_cast h2b
        apply ih (resolvePass p.1 p.2 s) idd (b - 1)
        · intro v hv
          have := hval' v hv
          omega
        · omega
        · have := hlen
          simp only [List.length_cons] at this
          omega
    · have hmem' : containsKey s.retrydevices idd = false := by
        cases h : containsKey s.retrydevices idd
        · rfl
        · exact absurd h hmem
      exact runPasses_rd_false t _ idd (resolvePass_rd_false p.1 p.2 s idd hmem')

/-- C5: an id carrying a uniform retry budget of b (as every id
inserted by the listener does, with b = RETRYCOUNT) is out of
PendingResolution after at most b resolution passes — resolved or
expired — and when its credentials never resolve (dead cloud
configuration and empty lookup) its registry entry survives unchanged,
still without name or key. -/
theorem c5_pending_removed_within_budget :
    ∀ (ps : List (Nat × CloudResult)) (s : ServerState) (idd : String) (b : Nat),
      (∀ v : Int, (idd, v) ∈ s.retrydevices → v = (b : Int)) →
      1 ≤ b → b ≤ ps.length →
      containsKey (runPasses ps s).retrydevices idd = false
      ∧ (s.cloudconfig.apiKey = "" →
          (tuyaLookup s.tuyadevices idd).1 = "" →
          (tuyaLookup s.tuyadevices idd).2.1 = "" →
          lookupKey (runPasses ps s).deviceslist idd = lookupKey s.deviceslist idd) := by
  intro ps s idd b hval hb hlen
  refine ⟨runPasses_rd_removed ps s idd b hval hb hlen, ?_⟩
  intro hKey hun1 hun2
  exact (runPasses_frozen ps s idd hKey hun1 hun2).1

/-- C5 witness: the theorem applied to the concrete pending state —
after two passes d2 is out of retrydevices and its registry entry is
unchanged. -/
theorem c5_witness :
    containsKey (runPasses samplePasses samplePendingState).retrydevices "d2" = false
    ∧ lookupKey (runPasses samplePasses samplePendingState).deviceslist "d2" =
        lookupKey samplePendingState.deviceslist "d2" := by
  have h := c5_pending_removed_within_budget samplePasses samplePendingState "d2" 2
    (by intro v hv; simpa [samplePendingState] using hv) (by decide) (by decide)
  exact ⟨h.1, h.2 rfl rfl rfl⟩

/-- C4 counterexample: with the wildcard pending, the pass makes zero
Cloud Sync Bridge invocations, refuting the claimed exactly-once
invocation. -/
theorem c4_force_resolve_counterexample :
    (resolvePass 0 (.err .jnull) sampleStarState).cloudCalls = sampleStarState.cloudCalls
    ∧ ¬ ((resolvePass 0 (.err .jnull) sampleStarState).cloudCalls
        = sampleStarState.cloudCalls + 1) := by
  constructor
  · rfl
  · rw [show (resolvePass 0 (.err .jnull) sampleStarState).cloudCalls = 0 from rfl]
    decide

/-- C4 (amended): when the wildcard is pending (always with budget one,
as the /sync and /cloudconfig routes arm it), the next iteration (a)
runs the pass regardless of the interval timer, (b) invokes the Cloud
Sync Bridge zero times — not once — because the arming route already
refreshed, leaving tuyadevices untouched, (c) attempts resolution for
every id of newdevices whatever its remaining budget, and (d) consumes
the wildcard. -/
theorem c4_amended_force_resolve :
    ∀ (s : ServerState) (now : Nat) (c : CloudResult),
      containsKey s.retrydevices "*" = true →
      (∀ v : Int, ("*", v) ∈ s.retrydevices → v = 1) →
      (retryLoopIter now c s = resolvePass now c s)
      ∧ ((resolvePass now c s).cloudCalls = s.cloudCalls)
      ∧ ((resolvePass now c s).tuyadevices = s.tuyadevices)
      ∧ (∀ (devid : String) (e : RegEntry) (dn dk dm : String),
          devid ∈ s.newdevices → lookupKey s.deviceslist devid = some e →
          tuyaLookup s.tuyadevices devid = (dn, dk, dm) → (dn ≠ "" ∨ dk ≠ "") →
          lookupKey (resolvePass now c s).deviceslist devid = some (updEntry e dn dk dm))
      ∧ containsKey (resolvePass now c s).retrydevices "*" = false := by
  intro s now c hstar hval
  have hlen := length_pos_of_containsKey s.retrydevices "*" hstar
  have htds := passTds_star c s hstar
  refine ⟨?_, ?_, ?_, ?_, ?_⟩
  · unfold retryLoopIter
    rw [if_pos (Or.inr hstar)]
  · simp only [resolvePass]
    rw [if_pos hlen]
    dsimp only
    rw [hstar]
    rfl
  · simp only [resolvePass]
    rw [if_pos hlen]
    dsimp only
    exact htds
  · intro devid e dn dk dm hmem hl ht hres
    exact resolvePass_dl_resolves now c s devid e dn dk dm hlen hmem hl
      (by rw [htds]; exact ht) hres
  · rcases resolvePass_rd_budget now c s "*" 1 hstar hval with h | ⟨h2b, _⟩
    · exact h
    · omega

/-- C4 witness: the amended theorem applied to the concrete armed
state. -/
theorem c4_amended_witness :
    retryLoopIter 0 (.err .jnull) sampleStarState = resolvePass 0 (.err .jnull) sampleStarState
    ∧ (resolvePass 0 (.err .jnull) sampleStarState).cloudCalls = sampleStarState.cloudCalls
    ∧ (resolvePass 0 (.err .jnull) sampleStarState).tuyadevices = sampleStarState.tuyadevices
    ∧ containsKey (resolvePass 0 (.err .jnull) sampleStarState).retrydevices "*" = false := by
  have h := c4_amended_force_resolve sampleStarState 0 (.err .jnull) (by rfl)
    (by intro v hv; simpa [sampleStarState] using hv)
  exact ⟨h.1, h.2.1, h.2.2.1, h.2.2.2.2⟩

/-- Helper: an id of newdevices that the fold did not record as found
survives the newdevices filter. -/
theorem mem_filter_not_found (nd found : List String) (idd : String)
    (hmem : idd ∈ nd) (hnf : idd ∉ found) :
    idd ∈ nd.filter (fun d => !(found.contains d)) := by
  rw [List.mem_filter]
  refine ⟨hmem, ?_⟩
  simp only [Bool.not_eq_true', List.contains, List.elem_eq_mem, decide_eq_false_iff_not]
  exact hnf

/-- Helper: a found id is dropped by the newdevices filter. -/
theorem not_mem_filter_found (nd found : List String) (idd : String)
    (hf : idd ∈ found) :
    idd ∉ nd.filter (fun d => !(found.contains d)) := by
  intro hmem
  have h2 := (List.mem_filter.mp hmem).2
  simp [List.contains, hf] at h2

/-- C10: expiry bounds the countdown, not resolution.  First part: in
the pass where an unresolvable id's budget hits zero (dead cloud
configuration, empty lookup), the id leaves retrydevices but stays in
newdevices.  Second part: any later pass in which the id's credentials
do resolve (against the pass's possibly refreshed store) still writes
name/key/mac into its registry entry and drops it from newdevices, even
though the id no longer has a retry budget. -/
theorem c10_expired_still_resolvable :
    (∀ (now : Nat) (c : CloudResult) (s : ServerState) (idd : String),
      s.cloudconfig.apiKey = "" →
      containsKey s.retrydevices idd = true →
      (∀ v : Int, (idd, v) ∈ s.retrydevices → v = 1) →
      idd ∈ s.newdevices →
      (tuyaLookup s.tuyadevices idd).1 = "" →
      (tuyaLookup s.tuyadevices idd).2.1 = "" →
      containsKey (resolvePass now c s).retrydevices idd = false
      ∧ idd ∈ (resolvePass now c s).newdevices)
    ∧ (∀ (now : Nat) (c : CloudResult) (s : ServerState) (idd : String) (e : RegEntry)
        (dn dk dm : String),
      0 < s.retrydevices.length →
      containsKey s.retrydevices idd = false →
      idd ∈ s.newdevices →
      lookupKey s.deviceslist idd = some e →
      tuyaLookup (passTds c s) idd = (dn, dk, dm) →
      (dn ≠ "" ∨ dk ≠ "") →
      lookupKey (resolvePass now c s).deviceslist idd = some (updEntry e dn dk dm)
      ∧ idd ∉ (resolvePass now c s).newdevices) := by
  constructor
  · intro now c s idd hKey hmem hval hnd hun1 hun2
    have hlen := length_pos_of_containsKey s.retrydevices idd hmem
    have htds := passTds_of_empty_key c s hKey
    constructor
    · rcases resolvePass_rd_budget now c s idd 1 hmem hval with h | ⟨h2b, _⟩
      · exact h
      · omega
    · simp only [resolvePass]
      rw [if_pos hlen]
      dsimp only
      apply mem_filter_not_found _ _ idd hnd
      intro hfound
      rcases fold_found_src (passTds c s) s.newdevices _ idd hfound with h | ⟨_, h2⟩
      · cases h
      · rw [htds] at h2
        rcases h2 with h | h
        · exact h hun1
        · exact h hun2
  · intro now c s idd e dn dk dm hlen hrd hnd hl ht hres
    constructor
    · exact resolvePass_dl_resolves now c s idd e dn dk dm hlen hnd hl ht hres
    · simp only [resolvePass]
      rw [if_pos hlen]
      dsimp only
      apply not_mem_filter_found
      apply fold_found_of_mem (passTds c s) s.newdevices _ idd hnd
      rw [ht]
      exact hres

/-- C10 witness: both parts of the theorem at concrete states — the
expiring pass keeps d2 in newdevices while clearing its budget, and a
later pass whose refresh delivers d2's record writes name/key/mac and
drops d2 from newdevices. -/
theorem c10_witness :
    (containsKey (resolvePass 10 (.err .jnull) sampleExpiringState).retrydevices "d2" = false
      ∧ "d2" ∈ (resolvePass 10 (.err .jnull) sampleExpiringState).newdevices)
    ∧ (lookupKey (resolvePass 50 (.ok [sampleResolvedRecord])
          sampleExpiredState).deviceslist "d2"
        = some (updEntry sampleExpiredEntry "Plug2" "KK" "m2")
      ∧ "d2" ∉ (resolvePass 50 (.ok [sampleResolvedRecord]) sampleExpiredState).newdevices) := by
  constructor
  · exact c10_expired_still_resolvable.1 10 (.err .jnull) sampleExpiringState "d2"
      rfl (by rfl) (by intro v hv; simpa [sampleExpiringState] using hv) (by decide) rfl rfl
  · exact c10_expired_still_resolvable.2 50 (.ok [sampleResolvedRecord]) sampleExpiredState
      "d2" sampleExpiredEntry "Plug2" "KK" "m2" (by decide) (by rfl) (by decide) (by rfl)
      (by rfl) (by simp)
